import Mathlib

/-!
Verification of the ign-transport discovery packet codec (src/Packet.cc) and
recorder engine (log/src/Recorder.cc), shallowly embedded in Lean 4.

Memory is modelled as a list of byte values (`List Nat`, each value < 256 for
well-formed data). A C `char *` buffer argument is `Option (List Nat)`:
`none` is the NULL pointer, `some mem` is the memory region starting at the
pointer. The code never receives a buffer size, so reads and writes are
unchecked, exactly as with `memcpy` in the source: a read beyond the given
region yields the byte 0, and a write beyond it extends the region (this is
how the model observes out-of-bounds writes). Integers are `Nat`; the wire
order is little-endian, standing for the host byte order used by the source.
-/

/-- Read the byte at the start of a memory region (`memcpy` of 1 byte). -/
def readByte (mem : List Nat) : Nat := mem.getD 0 0

/-- Read an `n`-byte little-endian unsigned integer at the start of `mem`. -/
def readLE (mem : List Nat) : Nat → Nat
  | 0 => 0
  | n + 1 => readByte mem + 256 * readLE (mem.drop 1) n

/-- Read `n` raw bytes from the start of `mem` (out-of-range reads give 0). -/
def readBytes (mem : List Nat) : Nat → List Nat
  | 0 => []
  | n + 1 => readByte mem :: readBytes (mem.drop 1) n

/-- Encode `v` as an `n`-byte little-endian unsigned integer. -/
def encodeLE (v : Nat) : Nat → List Nat
  | 0 => []
  | n + 1 => v % 256 :: encodeLE (v / 256) n

/-- `memcpy` of `data` to the start of a memory region: the written bytes
followed by whatever part of the old region lies beyond them. If `data` is
longer than `mem`, the write runs past the end of the region. -/
def writeBytes (mem data : List Nat) : List Nat :=
  data ++ mem.drop data.length

/-- `msgType` value `Uninitialized` (= 0), the sentinel meaning unset. -/
def UninitializedType : Nat := 0

/-- `msgType` value `AdvertiseType` (= 1). -/
def AdvertiseType : Nat := 1

/-- `Header` from Packet.hh: discovery protocol version (`uint16_t`), process
UUID (a `std::string`, modelled by its byte contents), message type
(`uint8_t`) and flags (`uint16_t`). -/
structure Header where
  version : Nat
  pUuid : List Nat
  type : Nat
  flags : Nat
  deriving Repr, DecidableEq

/-- The fields fit their C++ integer types and the UUID is a byte string
whose length fits the `uint64_t` length field. -/
def Header.WF (h : Header) : Prop :=
  h.version < 2 ^ 16 ∧ h.type < 2 ^ 8 ∧ h.flags < 2 ^ 16 ∧
  (∀ b ∈ h.pUuid, b < 256) ∧ h.pUuid.length < 2 ^ 64

instance (h : Header) : Decidable h.WF := by
  unfold Header.WF; infer_instance

/-- The condition under which `Header::Pack` accepts a header: the complement
of the "incomplete header" test at the top of `Header::Pack`. -/
def Header.ValidForPacking (h : Header) : Prop :=
  h.version ≠ 0 ∧ h.pUuid ≠ [] ∧ h.type ≠ UninitializedType

instance (h : Header) : Decidable h.ValidForPacking := by
  unfold Header.ValidForPacking; infer_instance

/-- `Header::HeaderLength`: sizeof(version) + sizeof(uint64_t) +
pUuid.size() + sizeof(type) + sizeof(flags). -/
def Header.HeaderLength (h : Header) : Nat :=
  2 + 8 + h.pUuid.length + 1 + 2

/-- The byte image `Header::Pack` produces: version, the UUID length as
`uint64_t`, the UUID bytes, the type byte, the flags. -/
def Header.packBytes (h : Header) : List Nat :=
  encodeLE h.version 2 ++ encodeLE h.pUuid.length 8 ++ h.pUuid ++
    h.type :: encodeLE h.flags 2

/-- Result of one of the `Pack` operations: the returned length (0 on
failure), the memory region starting at the buffer pointer after the call
(`none` when the pointer was NULL) and whether a diagnostic was written to
standard error. -/
structure PackResult where
  ret : Nat
  mem : Option (List Nat)
  diag : Bool
  deriving Repr, DecidableEq

/-- `Header::Pack`: reject an incomplete header, then a NULL buffer, then
memcpy version, UUID length, UUID, type and flags into the buffer and return
`HeaderLength()`. No buffer size is passed, so nothing bounds the write. -/
def Header.Pack (h : Header) (buf : Option (List Nat)) : PackResult :=
  if h.version = 0 ∨ h.pUuid = [] ∨ h.type = UninitializedType then
    { ret := 0, mem := buf, diag := true }
  else
    match buf with
    | none => { ret := 0, mem := none, diag := true }
    | some mem =>
      { ret := h.HeaderLength, mem := some (writeBytes mem h.packBytes),
        diag := false }

/-- `Header::Unpack`: reject a NULL buffer, otherwise overwrite every field
of the header with what the buffer holds — version at offset 0, the UUID
length `L` at offset 2, `L` UUID bytes at offset 10, the type at offset
`10 + L`, the flags at offset `11 + L` — and return `HeaderLength()` of the
freshly filled header. The first component is the header after the call. -/
def Header.Unpack (h : Header) (buf : Option (List Nat)) : Header × Nat :=
  match buf with
  | none => (h, 0)
  | some mem =>
    let v := readLE mem 2
    let uuidLen := readLE (mem.drop 2) 8
    let uuid := readBytes (mem.drop 10) uuidLen
    let ty := readByte (mem.drop (10 + uuidLen))
    let fl := readLE (mem.drop (11 + uuidLen)) 2
    let h2 : Header := { version := v, pUuid := uuid, type := ty, flags := fl }
    (h2, h2.HeaderLength)

/-- `SubscriptionMsg` from Packet.hh: a header plus a topic string (modelled
by its byte contents). -/
structure SubscriptionMsg where
  header : Header
  topic : List Nat
  deriving Repr, DecidableEq

/-- `SubscriptionMsg::MsgLength`: header length + sizeof(uint64_t) +
topic.size(). -/
def SubscriptionMsg.MsgLength (m : SubscriptionMsg) : Nat :=
  m.header.HeaderLength + 8 + m.topic.length

/-- `SubscriptionMsg::Pack`: pack the header (propagating its failure), then
reject an empty topic, then memcpy the topic length as `uint64_t` and the
topic bytes after the header, returning `MsgLength()`. -/
def SubscriptionMsg.Pack (m : SubscriptionMsg) (buf : Option (List Nat)) :
    PackResult :=
  let hr := m.header.Pack buf
  if hr.ret = 0 then { hr with ret := 0 }
  else if m.topic = [] then { ret := 0, mem := hr.mem, diag := true }
  else
    match hr.mem with
    | none => { ret := 0, mem := none, diag := true }
    | some mem =>
      let body := encodeLE m.topic.length 8 ++ m.topic
      { ret := m.MsgLength,
        mem := some (mem.take hr.ret ++ writeBytes (mem.drop hr.ret) body),
        diag := false }

/-- `SubscriptionMsg::Unpack` (body only): reject a NULL buffer, otherwise
read the `uint64_t` topic length and that many topic bytes, returning
8 + topic length. The first component is the message after the call. -/
def SubscriptionMsg.Unpack (m : SubscriptionMsg) (buf : Option (List Nat)) :
    SubscriptionMsg × Nat :=
  match buf with
  | none => (m, 0)
  | some mem =>
    let topicLen := readLE mem 8
    ({ m with topic := readBytes (mem.drop 8) topicLen }, 8 + topicLen)

/-- Modelled from the spec: `Publisher` is an externally-defined record (its
source is not part of the packet codec under verification) carrying opaque
payload bytes and exposing its own `Pack`/`Unpack`/`MsgLength`. Per the
spec's failure policy for the codecs, its pack and unpack with a NULL buffer
return 0; on success unpack consumes the buffer as the publisher's payload
and both directions return `MsgLength()`. -/
structure Publisher where
  blob : List Nat
  deriving Repr, DecidableEq

/-- Modelled from the spec: `Publisher::MsgLength`, the size of the
publisher's wire image. -/
def Publisher.MsgLength (p : Publisher) : Nat := p.blob.length

/-- Modelled from the spec: `Publisher::Pack` — 0 on a NULL buffer,
otherwise write the payload and return `MsgLength()`. -/
def Publisher.Pack (p : Publisher) (buf : Option (List Nat)) : PackResult :=
  match buf with
  | none => { ret := 0, mem := none, diag := true }
  | some mem =>
    { ret := p.MsgLength, mem := some (writeBytes mem p.blob), diag := false }

/-- Modelled from the spec: `Publisher::Unpack` — 0 on a NULL buffer,
otherwise fill the publisher from the buffer and return its `MsgLength()`.
The first component is the publisher after the call. -/
def Publisher.Unpack (p : Publisher) (buf : Option (List Nat)) :
    Publisher × Nat :=
  match buf with
  | none => (p, 0)
  | some mem => ({ blob := mem }, mem.length)

/-- `AdvertiseMessage` from Packet.hh: a header plus a publisher. -/
structure AdvertiseMessage where
  header : Header
  publisher : Publisher
  deriving Repr, DecidableEq

/-- `AdvertiseMessage::MsgLength`: header length + publisher.MsgLength(). -/
def AdvertiseMessage.MsgLength (a : AdvertiseMessage) : Nat :=
  a.header.HeaderLength + a.publisher.MsgLength

/-- `AdvertiseMessage::Pack`: pack the header (propagating its failure),
then delegate to `publisher.Pack` after the header (propagating its
failure), returning `MsgLength()`. -/
def AdvertiseMessage.Pack (a : AdvertiseMessage) (buf : Option (List Nat)) :
    PackResult :=
  let hr := a.header.Pack buf
  if hr.ret = 0 then { hr with ret := 0 }
  else
    match hr.mem with
    | none => { ret := 0, mem := none, diag := true }
    | some mem =>
      let pr := a.publisher.Pack (some (mem.drop hr.ret))
      if pr.ret = 0 then { ret := 0, mem := hr.mem, diag := pr.diag }
      else
        { ret := a.MsgLength,
          mem := some (mem.take hr.ret ++ (pr.mem.getD [])), diag := false }

/-- `AdvertiseMessage::Unpack` (body only): delegate to `publisher.Unpack`
— there is no NULL check of its own — and return 0 if it returned 0, else
the unpacked publisher's `MsgLength()`. The first component is the message
after the call. -/
def AdvertiseMessage.Unpack (a : AdvertiseMessage) (buf : Option (List Nat)) :
    AdvertiseMessage × Nat :=
  let (p, r) := a.publisher.Unpack buf
  if r = 0 then ({ a with publisher := p }, 0)
  else ({ a with publisher := p }, p.MsgLength)

/-!
Recorder engine (log/src/Recorder.cc). C++ strings are modelled as
`List Char`. The external collaborators (`Node`, `Log`) are modelled by an
environment recording their responses, and every call the recorder makes to
them is recorded as an event, so the theorems can speak about which
`Open`/`SubscribeRaw` calls a recorder operation issues. A `std::regex` is
modelled by its match predicate `List Char → Bool` (`std::regex_match` is a
full match of the whole string against the pattern).
-/

/-- Split a character list at every `'@'` delimiter. -/
def splitAtSign : List Char → List (List Char)
  | [] => [[]]
  | c :: rest =>
    match splitAtSign rest with
    | [] => [[]]
    | g :: gs => if c = '@' then [] :: g :: gs else (c :: g) :: gs

/-- Modelled from the spec: `TopicUtils::DecomposeFullyQualifiedTopic`
(its source is outside the recorder file): splits a string of the form
`"@/<partition>@<topic>"` into the partition (which always begins with `/`)
and the topic (which never contains the `@` delimiter). -/
def DecomposeFullyQualifiedTopic (fqtn : List Char) :
    List Char × List Char :=
  match splitAtSign fqtn with
  | [[], p, t] => (p, t)
  | _ => ([], [])

/-- `RecorderError` from Recorder.hh, the error enumeration surfaced to
callers. -/
inductive RecorderError
  | NO_ERROR
  | ALREADY_RECORDING
  | FAILED_TO_OPEN
  | FAILED_TO_SUBSCRIBE
  deriving Repr, DecidableEq

/-- One call the recorder makes to an external collaborator: `Log::Open` on
a path, or `Node::SubscribeRaw` on a topic, each with the result the
collaborator returned. -/
inductive RecEvent
  | openLog (path : List Char) (ok : Bool)
  | subscribeRaw (topic : List Char) (ok : Bool)
  deriving Repr, DecidableEq

/-- The behaviour of the external collaborators during a recorder
operation: whether `Log::Open` succeeds on a given path, whether
`Node::SubscribeRaw` succeeds on a given topic, what `Node::TopicList`
returns, and the node's configured partition
(`node.Options().Partition()`). -/
structure RecEnv where
  openOk : List Char → Bool
  subOk : List Char → Bool
  topicList : List (List Char)
  nodePartition : List Char

/-- The `RecorderPrivate` state the claims are about: the log file
(`nullptr`, i.e. `none`, when not recording), the stored topic patterns and
the set of already-subscribed topic names. -/
structure RecState where
  logFile : Option (List Char)
  patterns : List (List Char → Bool)
  alreadySubscribed : List (List Char)

/-- `std::set` insertion: adding an element already present changes
nothing. -/
def setInsert (t : List Char) (s : List (List Char)) : List (List Char) :=
  if t ∈ s then s else t :: s

/-- `RecorderPrivate::AddTopic(const std::string &)`: call
`node.SubscribeRaw`; on failure return `FAILED_TO_SUBSCRIBE` without
touching the state; on success insert the topic into `alreadySubscribed`
and return `NO_ERROR`. -/
def RecorderPrivate.AddTopic (env : RecEnv) (s : RecState)
    (topic : List Char) : RecorderError × RecState × List RecEvent :=
  if env.subOk topic then
    (RecorderError.NO_ERROR,
     { s with alreadySubscribed := setInsert topic s.alreadySubscribed },
     [RecEvent.subscribeRaw topic true])
  else
    (RecorderError.FAILED_TO_SUBSCRIBE, s,
     [RecEvent.subscribeRaw topic false])

/-- The pattern loop at the end of `RecorderPrivate::OnAdvertisement`: for
every stored pattern matching the topic, call `AddTopic(topic)` (its return
value is ignored). -/
def advertLoop (env : RecEnv) (topic : List Char) :
    List (List Char → Bool) → RecState → RecState × List RecEvent
  | [], s => (s, [])
  | p :: ps, s =>
    if p topic then
      let r1 := RecorderPrivate.AddTopic env s topic
      let r2 := advertLoop env topic ps r1.2.1
      (r2.1, r1.2.2 ++ r2.2)
    else advertLoop env topic ps s

/-- The `startCmp` offset of `RecorderPrivate::OnAdvertisement`: 0 when the
first character of the node's partition is `/`, else 1 (an empty node
partition reads the terminating NUL, which is not `/`). -/
def startCmp (nodePartition : List Char) : Nat :=
  if nodePartition.head? = some '/' then 0 else 1

/-- `RecorderPrivate::OnAdvertisement` after the topic decomposition:
compare the node's partition against the advertised one from offset
`startCmp`; drop the advertisement on a partition mismatch or when the
topic is already subscribed; otherwise run the pattern loop. -/
def onAdvertBody (env : RecEnv) (s : RecState)
    (partition topic : List Char) : RecState × List RecEvent :=
  if env.nodePartition ≠ partition.drop (startCmp env.nodePartition) then
    (s, [])
  else if topic ∈ s.alreadySubscribed then (s, [])
  else advertLoop env topic s.patterns s

/-- `RecorderPrivate::OnAdvertisement`: decompose the advertised
fully-qualified topic into partition and topic and run the handler body on
them. -/
def RecorderPrivate.OnAdvertisement (env : RecEnv) (s : RecState)
    (fqTopic : List Char) : RecState × List RecEvent :=
  let pt := DecomposeFullyQualifiedTopic fqTopic
  onAdvertBody env s pt.1 pt.2

/-- The topic loop of `RecorderPrivate::AddTopic(const std::regex &)`: for
each topic in the node's topic list that matches the pattern, call
`AddTopic(topic)`; if that returns `FAILED_TO_SUBSCRIBE`, return the
failure sentinel (`none`) immediately; otherwise count the subscription. -/
def addTopicLoop (env : RecEnv) (pat : List Char → Bool) :
    List (List Char) → RecState → Option Nat × RecState × List RecEvent
  | [], s => (some 0, s, [])
  | t :: ts, s =>
    if pat t then
      let r1 := RecorderPrivate.AddTopic env s t
      if r1.1 = RecorderError.FAILED_TO_SUBSCRIBE then (none, r1.2.1, r1.2.2)
      else
        let r2 := addTopicLoop env pat ts r1.2.1
        (r2.1.map (· + 1), r2.2.1, r1.2.2 ++ r2.2.2)
    else addTopicLoop env pat ts s

/-- `RecorderPrivate::AddTopic(const std::regex &)`: run the topic loop
over `node.TopicList()`; on failure return the `FAILED_TO_SUBSCRIBE`
sentinel (`none`, standing for the enum value cast to `int64_t`) without
storing the pattern; otherwise append the pattern to `patterns` after the
loop and return the number of subscriptions made. -/
def RecorderPrivate.AddTopicPattern (env : RecEnv) (s : RecState)
    (pat : List Char → Bool) : Option Nat × RecState × List RecEvent :=
  let r := addTopicLoop env pat env.topicList s
  match r.1 with
  | none => (none, r.2.1, r.2.2)
  | some n =>
    (some n, { r.2.1 with patterns := r.2.1.patterns ++ [pat] }, r.2.2)

/-- `Recorder::Start`: under the log-file mutex, if a log file is already
open return `ALREADY_RECORDING` without touching anything; otherwise make a
new log and call `Log::Open` on the given path — on failure reset the log
to `nullptr` and return `FAILED_TO_OPEN`, on success keep it and return
`NO_ERROR`. -/
def Recorder.Start (env : RecEnv) (s : RecState) (file : List Char) :
    RecorderError × RecState × List RecEvent :=
  match s.logFile with
  | some _ => (RecorderError.ALREADY_RECORDING, s, [])
  | none =>
    if env.openOk file then
      (RecorderError.NO_ERROR, { s with logFile := some file },
       [RecEvent.openLog file true])
    else
      (RecorderError.FAILED_TO_OPEN, { s with logFile := none },
       [RecEvent.openLog file false])

/-- The number of successful `SubscribeRaw` calls for topic `t` in an event
trace. -/
def countSubOk (t : List Char) : List RecEvent → Nat
  | [] => 0
  | e :: rest =>
    (if e = RecEvent.subscribeRaw t true then 1 else 0) + countSubOk t rest

/-! Helper lemmas about the byte-level primitives. -/

lemma encodeLE_length (v n : Nat) : (encodeLE v n).length = n := by
  induction n generalizing v with
  | zero => rfl
  | succ n ih => simp [encodeLE, ih]

lemma drop_append_eq (l r : List Nat) (n : Nat) (h : l.length = n) :
    (l ++ r).drop n = r := by
  subst h; exact List.drop_left l r

lemma readLE_encodeLE_append (v n : Nat) (rest : List Nat)
    (hv : v < 256 ^ n) : readLE (encodeLE v n ++ rest) n = v := by
  induction n generalizing v rest with
  | zero => simpa [readLE] using (Nat.lt_one_iff.mp (by simpa using hv)).symm
  | succ n ih =>
    have h2 : v / 256 < 256 ^ n := by
      rw [Nat.div_lt_iff_lt_mul (by norm_num)]
      calc v < 256 ^ (n + 1) := hv
        _ = 256 ^ n * 256 := by ring
    simp only [encodeLE, List.cons_append, readLE, readByte, List.getD_cons_zero,
      List.drop_succ_cons, List.drop_zero]
    rw [ih (v / 256) rest h2]
    omega

lemma readBytes_append (l rest : List Nat) : readBytes (l ++ rest) l.length = l := by
  induction l with
  | nil => rfl
  | cons x xs ih =>
    simp only [List.length_cons, List.cons_append, readBytes, readByte,
      List.getD_cons_zero, List.drop_succ_cons, List.drop_zero]
    rw [ih]

lemma readBytes_length (mem : List Nat) (n : Nat) :
    (readBytes mem n).length = n := by
  induction n generalizing mem with
  | zero => rfl
  | succ n ih => simp [readBytes, ih]

lemma packBytes_assoc (h : Header) :
    h.packBytes =
      encodeLE h.version 2 ++ (encodeLE h.pUuid.length 8 ++
        (h.pUuid ++ (h.type :: encodeLE h.flags 2))) := by
  simp [Header.packBytes, List.append_assoc]

lemma packBytes_length (h : Header) : h.packBytes.length = h.HeaderLength := by
  simp [Header.packBytes, Header.HeaderLength, encodeLE_length]
  omega

lemma writeBytes_of_length_eq (mem data : List Nat)
    (h : mem.length = data.length) : writeBytes mem data = data := by
  unfold writeBytes
  rw [← h, List.drop_length, List.append_nil]

/-- `Header::Pack` on a valid header and non-NULL buffer performs the
unchecked write of the packed image and returns `HeaderLength()`. -/
lemma pack_valid (h : Header) (mem : List Nat) (hval : h.ValidForPacking) :
    h.Pack (some mem) =
      { ret := h.HeaderLength, mem := some (writeBytes mem h.packBytes),
        diag := false } := by
  obtain ⟨h1, h2, h3⟩ := hval
  unfold Header.Pack
  rw [if_neg]
  rintro (hc | hc | hc)
  · exact h1 hc
  · exact h2 hc
  · exact h3 hc

/-- `Header::Unpack` on the exact byte image `Header::Pack` produces
reconstructs the packed header and returns its `HeaderLength()`. -/
lemma unpack_packBytes (h h0 : Header) (hWF : h.WF) :
    Header.Unpack h0 (some h.packBytes) = (h, h.HeaderLength) := by
  obtain ⟨hv, hty, hfl, _, hlen⟩ := hWF
  have hv2 : h.version < 256 ^ 2 := by norm_num at hv ⊢; omega
  have hlen8 : h.pUuid.length < 256 ^ 8 := by norm_num at hlen ⊢; omega
  have hfl2 : h.flags < 256 ^ 2 := by norm_num at hfl ⊢; omega
  have e1 : readLE h.packBytes 2 = h.version := by
    rw [packBytes_assoc]
    exact readLE_encodeLE_append _ _ _ hv2
  have d2 : h.packBytes.drop 2 =
      encodeLE h.pUuid.length 8 ++ (h.pUuid ++ (h.type :: encodeLE h.flags 2)) := by
    rw [packBytes_assoc]
    exact drop_append_eq _ _ _ (encodeLE_length _ _)
  have e2 : readLE (h.packBytes.drop 2) 8 = h.pUuid.length := by
    rw [d2]
    exact readLE_encodeLE_append _ _ _ hlen8
  have d10 : h.packBytes.drop 10 = h.pUuid ++ (h.type :: encodeLE h.flags 2) := by
    have h10 : h.packBytes.drop 10 = (h.packBytes.drop 2).drop 8 := by
      rw [List.drop_drop]
    rw [h10, d2]
    exact drop_append_eq _ _ _ (encodeLE_length _ _)
  have e3 : readBytes (h.packBytes.drop 10) h.pUuid.length = h.pUuid := by
    rw [d10]
    exact readBytes_append _ _
  have d10L : h.packBytes.drop (10 + h.pUuid.length) =
      h.type :: encodeLE h.flags 2 := by
    have hsplit : h.packBytes.drop (10 + h.pUuid.length) =
        (h.packBytes.drop 10).drop h.pUuid.length := by
      rw [List.drop_drop]
    rw [hsplit, d10]
    exact drop_append_eq _ _ _ rfl
  have e4 : readByte (h.packBytes.drop (10 + h.pUuid.length)) = h.type := by
    rw [d10L]; rfl
  have d11L : h.packBytes.drop (11 + h.pUuid.length) = encodeLE h.flags 2 := by
    have harith : 11 + h.pUuid.length = 10 + h.pUuid.length + 1 := by omega
    rw [harith, ← List.drop_drop, d10L]
    rfl
  have e5 : readLE (h.packBytes.drop (11 + h.pUuid.length)) 2 = h.flags := by
    rw [d11L, ← List.append_nil (encodeLE h.flags 2)]
    exact readLE_encodeLE_append _ _ _ hfl2
  unfold Header.Unpack
  simp only [e1, e2, e3, e4, e5]

/-! Claim theorems for the packet codec. -/

lemma header_pack_none_ret (h : Header) : (h.Pack none).ret = 0 := by
  unfold Header.Pack
  split
  · rfl
  · rfl

/-- C1: for every header valid for packing (with fields representable in
their C++ types), `Header::Unpack` applied to the buffer produced by
`Header::Pack(h)` reconstructs a header equal to `h`, and both directions
return `h`'s header length, namely 2 + 8 + len(process_uuid) + 1 + 2. -/
theorem C1_header_roundtrip (h h0 : Header) (mem : List Nat) (hWF : h.WF)
    (hval : h.ValidForPacking) (hmem : mem.length = h.HeaderLength) :
    (h.Pack (some mem)).ret = h.HeaderLength ∧
    (h.Pack (some mem)).mem = some h.packBytes ∧
    Header.Unpack h0 (some h.packBytes) = (h, h.HeaderLength) ∧
    h.HeaderLength = 2 + 8 + h.pUuid.length + 1 + 2 := by
  refine ⟨?_, ?_, unpack_packBytes h h0 hWF, rfl⟩
  · rw [pack_valid h mem hval]
  · rw [pack_valid h mem hval]
    simp only [PackResult.mk.injEq]
    rw [writeBytes_of_length_eq]
    rw [hmem, packBytes_length]

/-- Witness for C1 at the header (1, "abc", Advertise, 0) and a 16-byte
buffer. -/
theorem C1_header_roundtrip_witness :
    (Header.Pack ⟨1, [97, 98, 99], 1, 0⟩ (some (List.replicate 16 0))).ret =
      Header.HeaderLength ⟨1, [97, 98, 99], 1, 0⟩ ∧
    (Header.Pack ⟨1, [97, 98, 99], 1, 0⟩ (some (List.replicate 16 0))).mem =
      some (Header.packBytes ⟨1, [97, 98, 99], 1, 0⟩) ∧
    Header.Unpack ⟨0, [], 0, 0⟩ (some (Header.packBytes ⟨1, [97, 98, 99], 1, 0⟩)) =
      (⟨1, [97, 98, 99], 1, 0⟩, Header.HeaderLength ⟨1, [97, 98, 99], 1, 0⟩) ∧
    Header.HeaderLength ⟨1, [97, 98, 99], 1, 0⟩ = 2 + 8 + 3 + 1 + 2 :=
  C1_header_roundtrip ⟨1, [97, 98, 99], 1, 0⟩ ⟨0, [], 0, 0⟩
    (List.replicate 16 0) (by decide) (by decide) (by decide)

/-- C4 counterexample: for the header (version 1, uuid "abc", Advertise,
flags 0) the claim says 15, but `HeaderLength` is 2 + 8 + 3 + 1 + 2 = 16 and
`Pack` into a 15-byte buffer returns 16. -/
theorem C4_counterexample :
    Header.HeaderLength ⟨1, [97, 98, 99], 1, 0⟩ ≠ 15 ∧
    (Header.Pack ⟨1, [97, 98, 99], 1, 0⟩ (some (List.replicate 15 0))).ret ≠ 15 := by
  decide

/-- C4 (amended): for the header with version 1, process_uuid "abc", type
Advertise and flags 0, `HeaderLength` returns 16 and `Pack` into a 16-byte
buffer returns 16. -/
theorem C4_amended :
    Header.HeaderLength ⟨1, [97, 98, 99], AdvertiseType, 0⟩ = 16 ∧
    (Header.Pack ⟨1, [97, 98, 99], AdvertiseType, 0⟩
      (some (List.replicate 16 0))).ret = 16 := by
  decide

/-- C5: for every header and every non-NULL buffer, `Header::Pack` returns
0 and writes a diagnostic to standard error whenever the version is 0, the
process UUID is empty, or the type is Uninitialized — and the buffer is not
written. -/
theorem C5_pack_incomplete_rejected (h : Header) (mem : List Nat)
    (hbad : h.version = 0 ∨ h.pUuid = [] ∨ h.type = UninitializedType) :
    h.Pack (some mem) = { ret := 0, mem := some mem, diag := true } := by
  unfold Header.Pack
  rw [if_pos hbad]

/-- Witness for C5 at a header with version 0 and a 1-byte buffer. -/
theorem C5_pack_incomplete_rejected_witness :
    Header.Pack ⟨0, [97], 1, 0⟩ (some [7]) =
      { ret := 0, mem := some [7], diag := true } :=
  C5_pack_incomplete_rejected ⟨0, [97], 1, 0⟩ [7] (by decide)

/-- C6: every `Pack` and `Unpack` of the three codecs returns 0 on a NULL
buffer; in particular `AdvertiseMessage::Unpack` on a NULL buffer returns 0
(through the publisher codec's NULL rejection). -/
theorem C6_null_buffer_returns_zero (h h0 : Header) (m m0 : SubscriptionMsg)
    (a a0 : AdvertiseMessage) :
    (h.Pack none).ret = 0 ∧ (Header.Unpack h0 none).2 = 0 ∧
    (m.Pack none).ret = 0 ∧ (SubscriptionMsg.Unpack m0 none).2 = 0 ∧
    (a.Pack none).ret = 0 ∧ (AdvertiseMessage.Unpack a0 none).2 = 0 := by
  refine ⟨header_pack_none_ret h, rfl, ?_, rfl, ?_, rfl⟩
  · unfold SubscriptionMsg.Pack
    simp [header_pack_none_ret]
  · unfold AdvertiseMessage.Pack
    simp [header_pack_none_ret]

/-- C7 counterexample: packing a valid header of header length 16 into a
5-byte buffer does not return 0 — it returns 16 and leaves 16 written bytes
starting at the buffer pointer, 11 of them past the buffer's end. -/
theorem C7_counterexample :
    (Header.Pack ⟨1, [97, 98, 99], 1, 0⟩ (some (List.replicate 5 0))).ret ≠ 0 ∧
    ((Header.Pack ⟨1, [97, 98, 99], 1, 0⟩
        (some (List.replicate 5 0))).mem.getD []).length = 16 := by
  decide

/-- C7 (amended): `Header::Pack` performs no buffer-size check: for every
header valid for packing and every non-NULL buffer, it returns
`header_length(h)` and writes exactly `header_length(h)` bytes starting at
the buffer pointer, running past the buffer's end whenever the buffer is
smaller than `header_length(h)`. -/
theorem C7_amended (h : Header) (mem : List Nat) (hval : h.ValidForPacking) :
    (h.Pack (some mem)).ret = h.HeaderLength ∧
    (h.Pack (some mem)).mem = some (h.packBytes ++ mem.drop h.HeaderLength) ∧
    ((h.Pack (some mem)).mem.getD []).length = max h.HeaderLength mem.length := by
  rw [pack_valid h mem hval]
  refine ⟨rfl, ?_, ?_⟩
  · simp only [PackResult.mk.injEq, writeBytes, packBytes_length]
  · simp only [Option.getD_some, writeBytes, List.length_append,
      List.length_drop, packBytes_length]
    omega

/-- Witness for C7 (amended) at a valid header and a 5-byte buffer. -/
theorem C7_amended_witness :
    (Header.Pack ⟨1, [97, 98, 99], 1, 0⟩ (some (List.replicate 5 0))).ret =
      Header.HeaderLength ⟨1, [97, 98, 99], 1, 0⟩ ∧
    (Header.Pack ⟨1, [97, 98, 99], 1, 0⟩ (some (List.replicate 5 0))).mem =
      some (Header.packBytes ⟨1, [97, 98, 99], 1, 0⟩ ++
        (List.replicate 5 0).drop (Header.HeaderLength ⟨1, [97, 98, 99], 1, 0⟩)) ∧
    ((Header.Pack ⟨1, [97, 98, 99], 1, 0⟩
        (some (List.replicate 5 0))).mem.getD []).length =
      max (Header.HeaderLength ⟨1, [97, 98, 99], 1, 0⟩)
        (List.replicate 5 (0 : Nat)).length :=
  C7_amended ⟨1, [97, 98, 99], 1, 0⟩ (List.replicate 5 0) (by decide)

/-- C10: `Header::Unpack` on any non-NULL buffer succeeds with no
validation: it returns 13 plus the decoded uuid-length field (hence never
0) and overwrites all four header fields with the buffer's content
regardless of the header's previous value; on the all-zero 13-byte buffer
it yields version 0, an empty process UUID and type Uninitialized — a
header `Header::Pack` then rejects with return 0. -/
theorem C10_unpack_no_validation (h0 h1 : Header) (mem : List Nat) :
    (Header.Unpack h0 (some mem)).2 = 13 + readLE (mem.drop 2) 8 ∧
    (Header.Unpack h0 (some mem)).2 ≠ 0 ∧
    Header.Unpack h0 (some mem) = Header.Unpack h1 (some mem) ∧
    (Header.Unpack h0 (some (List.replicate 13 0))).1 =
      { version := 0, pUuid := [], type := UninitializedType, flags := 0 } ∧
    ((Header.Unpack h0 (some (List.replicate 13 0))).1.Pack (some [])).ret = 0 := by
  have hret : (Header.Unpack h0 (some mem)).2 = 13 + readLE (mem.drop 2) 8 := by
    unfold Header.Unpack Header.HeaderLength
    simp only [readBytes_length]
    omega
  refine ⟨hret, by rw [hret]; omega, rfl, rfl, rfl⟩

/-! Helper lemmas about the recorder operations. -/

lemma addTopic_ok (env : RecEnv) (s : RecState) (t : List Char)
    (h : env.subOk t = true) :
    RecorderPrivate.AddTopic env s t =
      (RecorderError.NO_ERROR,
       { s with alreadySubscribed := setInsert t s.alreadySubscribed },
       [RecEvent.subscribeRaw t true]) := by
  unfold RecorderPrivate.AddTopic
  rw [if_pos h]

lemma addTopic_fail (env : RecEnv) (s : RecState) (t : List Char)
    (h : env.subOk t = false) :
    RecorderPrivate.AddTopic env s t =
      (RecorderError.FAILED_TO_SUBSCRIBE, s,
       [RecEvent.subscribeRaw t false]) := by
  unfold RecorderPrivate.AddTopic
  rw [if_neg (by simp [h])]

lemma addTopic_events (env : RecEnv) (s : RecState) (t : List Char) :
    (RecorderPrivate.AddTopic env s t).2.2 =
      [RecEvent.subscribeRaw t (env.subOk t)] := by
  cases h : env.subOk t
  · rw [addTopic_fail env s t h]
  · rw [addTopic_ok env s t h]

lemma advertLoop_events (env : RecEnv) (topic : List Char) :
    ∀ (ps : List (List Char → Bool)) (s : RecState),
      (advertLoop env topic ps s).2 =
        (ps.filter (fun p => p topic)).map
          (fun _ => RecEvent.subscribeRaw topic (env.subOk topic)) := by
  intro ps
  induction ps with
  | nil => intro s; rfl
  | cons p ps ih =>
    intro s
    unfold advertLoop
    cases hp : p topic
    · simp only [Bool.false_eq_true, if_false, List.filter_cons, hp]
      exact ih s
    · simp only [if_true, List.filter_cons, hp, List.map_cons, addTopic_events]
      rw [ih]
      rfl

lemma addTopicLoop_all_ok (env : RecEnv) (pat : List Char → Bool) :
    ∀ (ts : List (List Char)) (s : RecState),
      (∀ t ∈ ts, pat t = true → env.subOk t = true) →
      (addTopicLoop env pat ts s).1 =
        some (ts.filter (fun t => pat t)).length ∧
      (addTopicLoop env pat ts s).2.1.patterns = s.patterns ∧
      (addTopicLoop env pat ts s).2.2 =
        (ts.filter (fun t => pat t)).map
          (fun t => RecEvent.subscribeRaw t true) := by
  intro ts
  induction ts with
  | nil => exact fun s _ => ⟨rfl, rfl, rfl⟩
  | cons t ts ih =>
    intro s h
    have hrest : ∀ x ∈ ts, pat x = true → env.subOk x = true :=
      fun x hx => h x (List.mem_cons_of_mem _ hx)
    unfold addTopicLoop
    cases hp : pat t
    · simp only [Bool.false_eq_true, if_false, List.filter_cons, hp]
      exact ih s hrest
    · have hok : env.subOk t = true := h t (List.mem_cons_self _ _) hp
      obtain ⟨ih1, ih2, ih3⟩ :=
        ih { s with alreadySubscribed := setInsert t s.alreadySubscribed } hrest
      simp only [if_true, addTopic_ok env s t hok, List.filter_cons, hp,
        reduceCtorEq, if_false, ih1, ih2, ih3, List.length_cons, List.map_cons,
        Option.map_some, List.cons_append, List.nil_append]
      exact ⟨by trivial, by trivial, by trivial⟩

lemma addTopicLoop_fail (env : RecEnv) (pat : List Char → Bool)
    (tf : List Char) (hptf : pat tf = true) (hfail : env.subOk tf = false) :
    ∀ (pre : List (List Char)) (post : List (List Char)) (s : RecState),
      (∀ t ∈ pre, pat t = true → env.subOk t = true) →
      (addTopicLoop env pat (pre ++ tf :: post) s).1 = none ∧
      (addTopicLoop env pat (pre ++ tf :: post) s).2.1.patterns = s.patterns ∧
      (addTopicLoop env pat (pre ++ tf :: post) s).2.2 =
        (pre.filter (fun t => pat t)).map
          (fun t => RecEvent.subscribeRaw t true) ++
          [RecEvent.subscribeRaw tf false] := by
  intro pre
  induction pre with
  | nil =>
    intro post s _
    simp only [List.nil_append]
    unfold addTopicLoop
    simp only [hptf, if_true, addTopic_fail env s tf hfail]
    exact ⟨by trivial, by trivial, by trivial⟩
  | cons t ts ih =>
    intro post s h
    have hrest : ∀ x ∈ ts, pat x = true → env.subOk x = true :=
      fun x hx => h x (List.mem_cons_of_mem _ hx)
    simp only [List.cons_append]
    unfold addTopicLoop
    cases hp : pat t
    · simp only [Bool.false_eq_true, if_false, List.filter_cons, hp]
      exact ih post s hrest
    · have hok : env.subOk t = true := h t (List.mem_cons_self _ _) hp
      obtain ⟨ih1, ih2, ih3⟩ :=
        ih post { s with alreadySubscribed := setInsert t s.alreadySubscribed }
          hrest
      simp only [if_true, addTopic_ok env s t hok, reduceCtorEq, if_false,
        List.filter_cons, hp, ih1, ih2, ih3, List.map_cons, List.cons_append,
        Option.map_none]
      exact ⟨by trivial, by trivial, by trivial⟩

lemma countSubOk_map_self {α : Type} (t : List Char) (ok : Bool)
    (l : List α) :
    countSubOk t (l.map (fun _ => RecEvent.subscribeRaw t ok)) =
      if ok then l.length else 0 := by
  induction l with
  | nil => cases ok <;> rfl
  | cons x xs ih =>
    cases ok <;> simp_all [countSubOk, List.map_cons]
    omega

/-! Claim theorems for the recorder engine. -/

/-- C2: when the log is already open, `Recorder::Start(p')` returns
`ALREADY_RECORDING`, opens nothing and leaves the state unchanged; when the
log is closed and opening the new file fails, it returns `FAILED_TO_OPEN`
with the log left as `None`. -/
theorem C2_start_lifecycle (env : RecEnv) (s : RecState) (p : List Char) :
    (∀ f, s.logFile = some f →
      Recorder.Start env s p = (RecorderError.ALREADY_RECORDING, s, [])) ∧
    (s.logFile = none → env.openOk p = false →
      Recorder.Start env s p =
        (RecorderError.FAILED_TO_OPEN, s, [RecEvent.openLog p false]) ∧
      (Recorder.Start env s p).2.1.logFile = none) := by
  obtain ⟨lf, pats, subs⟩ := s
  constructor
  · intro f hf
    simp only at hf
    subst hf
    rfl
  · intro hn hopen
    simp only at hn
    subst hn
    unfold Recorder.Start
    simp only [hopen, Bool.false_eq_true, if_false]
    exact ⟨by trivial, by trivial⟩

/-- Witness for C2: a state with an open log refuses a second start; a
failing open leaves the log closed. -/
theorem C2_start_lifecycle_witness :
    Recorder.Start ⟨fun _ => false, fun _ => true, [], []⟩
        ⟨some ['a'], [], []⟩ ['b'] =
      (RecorderError.ALREADY_RECORDING, ⟨some ['a'], [], []⟩, []) ∧
    (Recorder.Start ⟨fun _ => false, fun _ => true, [], []⟩
        ⟨none, [], []⟩ ['b'] =
      (RecorderError.FAILED_TO_OPEN, ⟨none, [], []⟩,
       [RecEvent.openLog ['b'] false]) ∧
     (Recorder.Start ⟨fun _ => false, fun _ => true, [], []⟩
        ⟨none, [], []⟩ ['b']).2.1.logFile = none) :=
  ⟨(C2_start_lifecycle ⟨fun _ => false, fun _ => true, [], []⟩
      ⟨some ['a'], [], []⟩ ['b']).1 ['a'] rfl,
   (C2_start_lifecycle ⟨fun _ => false, fun _ => true, [], []⟩
      ⟨none, [], []⟩ ['b']).2 rfl rfl⟩

lemma onAdvertisement_decomposed (env : RecEnv) (s : RecState)
    (fq part topic : List Char)
    (hdec : DecomposeFullyQualifiedTopic fq = (part, topic)) :
    RecorderPrivate.OnAdvertisement env s fq = onAdvertBody env s part topic := by
  unfold RecorderPrivate.OnAdvertisement
  rw [hdec]

/-- C9: an advertisement whose partition does not match the node's
partition — compared from offset 0 of the advertised partition when the
node's partition begins with `/`, from offset 1 otherwise — is dropped with
no subscription and no state change; node partition "robot" matches
advertised partition "/robot" and does not match "/other". -/
theorem C9_partition_rule :
    (∀ (env : RecEnv) (s : RecState) (fq part topic : List Char),
      DecomposeFullyQualifiedTopic fq = (part, topic) →
      env.nodePartition ≠ part.drop (startCmp env.nodePartition) →
      RecorderPrivate.OnAdvertisement env s fq = (s, [])) ∧
    "robot".toList = "/robot".toList.drop (startCmp "robot".toList) ∧
    "robot".toList ≠ "/other".toList.drop (startCmp "robot".toList) ∧
    startCmp "robot".toList = 1 ∧ startCmp "/robot".toList = 0 := by
  refine ⟨?_, by decide, by decide, by decide, by decide⟩
  intro env s fq part topic hdec hne
  rw [onAdvertisement_decomposed env s fq part topic hdec]
  unfold onAdvertBody
  rw [if_pos hne]

/-- Witness for C9: with node partition "robot", the advertisement for
topic "cmd" in partition "/other" is dropped. -/
theorem C9_partition_rule_witness :
    RecorderPrivate.OnAdvertisement
        ⟨fun _ => true, fun _ => true, [], "robot".toList⟩
        ⟨none, [], []⟩ "@/other@cmd".toList =
      (⟨none, [], []⟩, []) :=
  C9_partition_rule.1 ⟨fun _ => true, fun _ => true, [], "robot".toList⟩
    ⟨none, [], []⟩ "@/other@cmd".toList "/other".toList "cmd".toList
    (by decide) (by decide)

/-- C3 counterexample: with two stored patterns both matching "cmd" and a
node that accepts every subscription, a single advertisement for "cmd"
(not yet subscribed) makes `OnAdvertisement` complete two successful
`SubscribeRaw` calls for the same topic — the membership check runs once,
before the pattern loop, and each matching pattern calls `AddTopic`. -/
theorem C3_counterexample :
    (RecorderPrivate.OnAdvertisement
        ⟨fun _ => true, fun _ => true, [], "robot".toList⟩
        ⟨none, [fun _ => true, fun _ => true], []⟩
        "@/robot@cmd".toList).2 =
      [RecEvent.subscribeRaw "cmd".toList true,
       RecEvent.subscribeRaw "cmd".toList true] ∧
    countSubOk "cmd".toList
      (RecorderPrivate.OnAdvertisement
        ⟨fun _ => true, fun _ => true, [], "robot".toList⟩
        ⟨none, [fun _ => true, fun _ => true], []⟩
        "@/robot@cmd".toList).2 = 2 := by
  decide

/-- C3 (amended): when an advertisement for an already-subscribed topic
arrives, `OnAdvertisement` issues no `SubscribeRaw` at all; when the topic
is not yet subscribed (and the partition matches), it issues exactly one
`SubscribeRaw` per stored pattern matching the topic — so several
successful `SubscribeRaw` calls for the same topic complete in one
advertisement when several patterns match it. -/
theorem C3_amended (env : RecEnv) (s : RecState) (fq part topic : List Char)
    (hdec : DecomposeFullyQualifiedTopic fq = (part, topic)) :
    (topic ∈ s.alreadySubscribed →
      RecorderPrivate.OnAdvertisement env s fq = (s, [])) ∧
    (env.nodePartition = part.drop (startCmp env.nodePartition) →
     topic ∉ s.alreadySubscribed →
      (RecorderPrivate.OnAdvertisement env s fq).2 =
        (s.patterns.filter (fun p => p topic)).map
          (fun _ => RecEvent.subscribeRaw topic (env.subOk topic)) ∧
      countSubOk topic (RecorderPrivate.OnAdvertisement env s fq).2 =
        (if env.subOk topic then
          (s.patterns.filter (fun p => p topic)).length else 0)) := by
  rw [onAdvertisement_decomposed env s fq part topic hdec]
  constructor
  · intro hmem
    unfold onAdvertBody
    by_cases hp : env.nodePartition = part.drop (startCmp env.nodePartition)
    · rw [if_neg (not_not_intro hp), if_pos hmem]
    · rw [if_pos hp]
  · intro hp hmem
    unfold onAdvertBody
    rw [if_neg (not_not_intro hp), if_neg hmem]
    refine ⟨advertLoop_events env topic s.patterns s, ?_⟩
    rw [advertLoop_events env topic s.patterns s, countSubOk_map_self]

/-- Witness for C3 (amended): an already-subscribed topic produces no
subscription; an unsubscribed topic with two matching patterns produces
two. -/
theorem C3_amended_witness :
    (RecorderPrivate.OnAdvertisement
        ⟨fun _ => true, fun _ => true, [], "robot".toList⟩
        ⟨none, [fun _ => true, fun _ => true], ["cmd".toList]⟩
        "@/robot@cmd".toList =
      (⟨none, [fun _ => true, fun _ => true], ["cmd".toList]⟩, [])) ∧
    countSubOk "cmd".toList
      (RecorderPrivate.OnAdvertisement
        ⟨fun _ => true, fun _ => true, [], "robot".toList⟩
        ⟨none, [fun _ => true, fun _ => true], []⟩
        "@/robot@cmd".toList).2 =
      (if (fun _ => true) "cmd".toList then
        ([fun _ => true, fun _ => true].filter
          (fun p => p "cmd".toList)).length else 0) :=
  ⟨(C3_amended ⟨fun _ => true, fun _ => true, [], "robot".toList⟩
      ⟨none, [fun _ => true, fun _ => true], ["cmd".toList]⟩
      "@/robot@cmd".toList "/robot".toList "cmd".toList (by decide)).1
      (by decide),
   ((C3_amended ⟨fun _ => true, fun _ => true, [], "robot".toList⟩
      ⟨none, [fun _ => true, fun _ => true], []⟩
      "@/robot@cmd".toList "/robot".toList "cmd".toList (by decide)).2
      (by decide) (by decide)).2⟩

/-- C8: `AddTopic(pattern)` subscribes exactly the currently listed topics
that fully match the pattern; if every matching subscription succeeds it
returns their count — appending the pattern to the stored pattern list even
when the count is zero — and if some matching topic fails to subscribe it
returns the `FAILED_TO_SUBSCRIBE` sentinel immediately, with no further
subscription attempts and without storing the pattern. -/
theorem C8_add_topic_pattern (env : RecEnv) (s : RecState)
    (pat : List Char → Bool) :
    ((∀ t ∈ env.topicList, pat t = true → env.subOk t = true) →
      (RecorderPrivate.AddTopicPattern env s pat).1 =
        some (env.topicList.filter (fun t => pat t)).length ∧
      (RecorderPrivate.AddTopicPattern env s pat).2.1.patterns =
        s.patterns ++ [pat] ∧
      (RecorderPrivate.AddTopicPattern env s pat).2.2 =
        (env.topicList.filter (fun t => pat t)).map
          (fun t => RecEvent.subscribeRaw t true)) ∧
    (∀ pre tf post, env.topicList = pre ++ tf :: post →
      (∀ t ∈ pre, pat t = true → env.subOk t = true) →
      pat tf = true → env.subOk tf = false →
      (RecorderPrivate.AddTopicPattern env s pat).1 = none ∧
      (RecorderPrivate.AddTopicPattern env s pat).2.1.patterns = s.patterns ∧
      (RecorderPrivate.AddTopicPattern env s pat).2.2 =
        (pre.filter (fun t => pat t)).map
          (fun t => RecEvent.subscribeRaw t true) ++
          [RecEvent.subscribeRaw tf false]) := by
  constructor
  · intro hall
    obtain ⟨h1, h2, h3⟩ := addTopicLoop_all_ok env pat env.topicList s hall
    simp only [RecorderPrivate.AddTopicPattern]
    rw [h1]
    refine ⟨rfl, ?_, h3⟩
    simp only [h2]
  · intro pre tf post hsplit hpre hptf hfail
    obtain ⟨h1, h2, h3⟩ :=
      addTopicLoop_fail env pat tf hptf hfail pre post s hpre
    simp only [RecorderPrivate.AddTopicPattern]
    rw [hsplit, h1]
    exact ⟨rfl, h2, h3⟩

/-- Witness for C8: a one-topic list where the subscription succeeds gives
count 1 with the pattern stored; a non-matching pattern gives count 0 and
still stores the pattern; a failing subscription gives the sentinel and no
stored pattern. -/
theorem C8_add_topic_pattern_witness :
    ((RecorderPrivate.AddTopicPattern
        ⟨fun _ => true, fun _ => true, [['a']], []⟩
        ⟨none, [], []⟩ (fun _ => true)).1 = some 1 ∧
     (RecorderPrivate.AddTopicPattern
        ⟨fun _ => true, fun _ => true, [['a']], []⟩
        ⟨none, [], []⟩ (fun _ => true)).2.1.patterns = [] ++ [fun _ => true] ∧
     (RecorderPrivate.AddTopicPattern
        ⟨fun _ => true, fun _ => true, [['a']], []⟩
        ⟨none, [], []⟩ (fun _ => true)).2.2 =
       [RecEvent.subscribeRaw ['a'] true]) ∧
    ((RecorderPrivate.AddTopicPattern
        ⟨fun _ => true, fun _ => true, [['a']], []⟩
        ⟨none, [], []⟩ (fun _ => false)).1 = some 0 ∧
     (RecorderPrivate.AddTopicPattern
        ⟨fun _ => true, fun _ => true, [['a']], []⟩
        ⟨none, [], []⟩ (fun _ => false)).2.1.patterns =
       [] ++ [fun _ => false]) ∧
    ((RecorderPrivate.AddTopicPattern
        ⟨fun _ => true, fun _ => false, [['a']], []⟩
        ⟨none, [], []⟩ (fun _ => true)).1 = none ∧
     (RecorderPrivate.AddTopicPattern
        ⟨fun _ => true, fun _ => false, [['a']], []⟩
        ⟨none, [], []⟩ (fun _ => true)).2.1.patterns = [] ∧
     (RecorderPrivate.AddTopicPattern
        ⟨fun _ => true, fun _ => false, [['a']], []⟩
        ⟨none, [], []⟩ (fun _ => true)).2.2 =
       [RecEvent.subscribeRaw ['a'] false]) := by
  refine ⟨?_, ?_, ?_⟩
  · exact (C8_add_topic_pattern ⟨fun _ => true, fun _ => true, [['a']], []⟩
      ⟨none, [], []⟩ (fun _ => true)).1 (fun t _ h => h)
  · obtain ⟨w1, w2, _⟩ :=
      (C8_add_topic_pattern ⟨fun _ => true, fun _ => true, [['a']], []⟩
        ⟨none, [], []⟩ (fun _ => false)).1 (fun t _ h => absurd h (by simp))
    exact ⟨w1, w2⟩
  · exact (C8_add_topic_pattern ⟨fun _ => true, fun _ => false, [['a']], []⟩
      ⟨none, [], []⟩ (fun _ => true)).2 [] ['a'] [] rfl
      (fun t ht _ => absurd ht (List.not_mem_nil t)) rfl rfl
